import Mathlib

/-!
Verification of the temporal-validity and freshness-scoring subsystem of
the oro-models package, together with the belief row factory of its test
fixtures.

The repository source file src/src/oro_models/interface.py declares the
public contract (TemporalValidity, SupersessionChain, calculate_freshness,
freshness_label) but the implementation bodies are not present among the
sources; those components are therefore modelled here from the
specification text, as noted on each definition. The belief row factory
is embedded directly from src/tests/conftest.py.
-/

/-- Modelled from the spec: the `TemporalValidity` value type of
src/src/oro_models/interface.py (declared there, body absent from the
sources). A time window of belief validity; an absent bound means the
interval is open on that side. Timestamps are modelled as integers. -/
structure TemporalValidity where
  valid_from : Option Int
  valid_until : Option Int
deriving DecidableEq, Repr

/-- Modelled from the spec: the error raised by `TemporalValidity`
construction on a malformed window. -/
inductive IntervalError where
  | invalidInterval
deriving DecidableEq, Repr

/-- Modelled from the spec: construction of a `TemporalValidity`, which
fails with `InvalidIntervalError` when both bounds are present and
`valid_from > valid_until`. -/
def TemporalValidity.create (vf vu : Option Int) :
    Except IntervalError TemporalValidity :=
  match vf, vu with
  | some f, some u =>
      if u < f then Except.error IntervalError.invalidInterval
      else Except.ok ⟨some f, some u⟩
  | f, u => Except.ok ⟨f, u⟩

/-- Modelled from the spec: `is_valid_at(instant)` is true iff
`(valid_from is None or instant >= valid_from)` and
`(valid_until is None or instant <= valid_until)`. -/
def TemporalValidity.is_valid_at (tv : TemporalValidity) (t : Int) : Bool :=
  (match tv.valid_from with
   | none => true
   | some f => decide (f ≤ t)) &&
  (match tv.valid_until with
   | none => true
   | some u => decide (t ≤ u))

/-- Modelled from the spec: `is_expired(now)` is true iff `valid_until`
is present and `now > valid_until`. -/
def TemporalValidity.is_expired (tv : TemporalValidity) (now : Int) : Bool :=
  match tv.valid_until with
  | none => false
  | some u => decide (u < now)

/-- Modelled from the spec: the error taxonomy of the supersession-chain
builder and its queries (`BrokenChainError`, `UnresolvedLinkError`
carrying the missing id, `ChainTooLongError`, `NoHeadError`,
`NotInChainError`). -/
inductive ChainError where
  | broken
  | unresolved (missing : Nat)
  | tooLong
  | noHead
  | notInChain
deriving DecidableEq, Repr

/-- Modelled from the spec: `SupersessionChain`, an ordered lineage of
belief identifiers, chronological oldest-first. Belief ids are modelled
as naturals. -/
structure SupersessionChain where
  members : List Nat
deriving DecidableEq, Repr

/-- Modelled from the spec: the default maximum chain-traversal step
count (the configurable bound, default 1000). -/
def defaultMaxChainSteps : Nat := 1000

/-- Modelled from the spec: the backward phase of the chain walk. From
`cur` it follows `supersedes` links while present, prepending each
visited id, so the result is oldest-first and ends with the starting
belief. One unit of fuel is spent per visited member; running out fails
with `ChainTooLongError`, a lookup miss with `UnresolvedLinkError`, and
a revisited id with `BrokenChainError`. Returns the collected members
and the remaining fuel. -/
def walkBack (lookup : Nat → Option (Option Nat × Option Nat)) :
    Nat → Nat → List Nat → Except ChainError (List Nat × Nat)
  | 0, _, _ => Except.error ChainError.tooLong
  | fuel + 1, cur, acc =>
    match lookup cur with
    | none => Except.error (ChainError.unresolved cur)
    | some (sup, _) =>
      match sup with
      | none => Except.ok (cur :: acc, fuel)
      | some p =>
        if p ∈ cur :: acc then Except.error ChainError.broken
        else walkBack lookup fuel p (cur :: acc)

/-- Modelled from the spec: the forward phase of the chain walk. From
`cur` it follows `superseded_by` links while present, appending each
visited id, with the same fuel, cycle and dangling-link behavior as the
backward phase. -/
def walkFwd (lookup : Nat → Option (Option Nat × Option Nat)) :
    Nat → Nat → List Nat → Except ChainError (List Nat)
  | 0, _, _ => Except.error ChainError.tooLong
  | fuel + 1, cur, acc =>
    match lookup cur with
    | none => Except.error (ChainError.unresolved cur)
    | some (_, sby) =>
      match sby with
      | none => Except.ok (acc ++ [cur])
      | some nxt =>
        if nxt ∈ acc ++ [cur] then Except.error ChainError.broken
        else walkFwd lookup fuel nxt (acc ++ [cur])

/-- Modelled from the spec: the forward half of `build`, entered after
the backward walk produced the members `back` up to and including the
seed. Follows the `superseded_by` link of the seed if present, with the
remaining fuel. -/
def buildFwdPhase (lookup : Nat → Option (Option Nat × Option Nat))
    (seed : Nat) (back : List Nat) (fuel : Nat) :
    Except ChainError SupersessionChain :=
  match lookup seed with
  | none => Except.error (ChainError.unresolved seed)
  | some (_, sby) =>
    match sby with
    | none => Except.ok ⟨back⟩
    | some nxt =>
      if nxt ∈ back then Except.error ChainError.broken
      else
        match walkFwd lookup fuel nxt back with
        | Except.error e => Except.error e
        | Except.ok ms => Except.ok ⟨ms⟩

/-- Modelled from the spec: `SupersessionChain.build(seed, lookup)`.
Given a lookup from belief id to its `(supersedes_id, superseded_by_id)`
pair, walks backward from the seed while `supersedes_id` is present,
then forward while `superseded_by_id` is present, collecting members in
chronological order within a bounded step budget. -/
def SupersessionChain.build
    (lookup : Nat → Option (Option Nat × Option Nat))
    (seed : Nat) (maxSteps : Nat) : Except ChainError SupersessionChain :=
  match walkBack lookup maxSteps seed [] with
  | Except.error e => Except.error e
  | Except.ok (back, fuel) => buildFwdPhase lookup seed back fuel

/-- Modelled from the spec: `head()` returns the chain member with no
successor, the last member in chronological order; an empty member list
(traversal did not resolve a terminal member) fails with `NoHeadError`. -/
def SupersessionChain.head (c : SupersessionChain) : Except ChainError Nat :=
  match c.members.getLast? with
  | none => Except.error ChainError.noHead
  | some h => Except.ok h

/-- Helper for `position_of`: 0-based index of `i` in the list, offset
by `k`. -/
def posAux : List Nat → Nat → Nat → Option Nat
  | [], _, _ => none
  | x :: xs, i, k => if x = i then some k else posAux xs i (k + 1)

/-- Modelled from the spec: `position_of(belief_id)` is the 0-based
index from the chain root, failing with `NotInChainError` when the id
is absent. -/
def SupersessionChain.position_of (c : SupersessionChain) (i : Nat) :
    Except ChainError Nat :=
  match posAux c.members i 0 with
  | none => Except.error ChainError.notInChain
  | some k => Except.ok k

/-- Modelled from the spec: `is_superseded(belief_id)` is true iff the
member is not the chain head. -/
def SupersessionChain.is_superseded (c : SupersessionChain) (i : Nat) : Bool :=
  match c.members.getLast? with
  | none => false
  | some h => decide (i ≠ h)

/-- A well-formed linear chain over the distinct ids `ids`, as a link
lookup: each member supersedes the previous member of `ids` and is
superseded by the next one. -/
def linearLookup (ids : List Nat) (i : Nat) :
    Option (Option Nat × Option Nat) :=
  match posAux ids i 0 with
  | none => none
  | some k =>
      some (if k = 0 then none else ids[k - 1]?, ids[k + 1]?)

/-- The spec scenario of a two-belief cycle: belief 1 supersedes
belief 2 and belief 2 supersedes belief 1, with mutually consistent
`superseded_by` links. -/
def cycleLookup (i : Nat) : Option (Option Nat × Option Nat) :=
  if i = 1 then some (some 2, some 2)
  else if i = 2 then some (some 1, some 1)
  else none

/-- A dangling link: belief 1 claims to supersede belief 2, but the
lookup cannot resolve 2. -/
def danglingLookup (i : Nat) : Option (Option Nat × Option Nat) :=
  if i = 1 then some (some 2, none) else none

/-- A forward-infinite link structure: every belief is superseded by a
fresh belief, so traversal only stops via the step budget. -/
def endlessLookup (i : Nat) : Option (Option Nat × Option Nat) :=
  some (if i = 0 then none else some (i - 1), some (i + 1))

/-- Modelled from the spec: the label enumeration of `FreshnessResult`. -/
inductive FreshnessLabel where
  | fresh
  | aging
  | stale
  | superseded
  | expired
deriving DecidableEq, Repr

/-- Modelled from the spec: `FreshnessResult`, a bounded score in
[0, 1] together with a discrete label. Scores are modelled as
rationals. -/
structure FreshnessResult where
  score : ℚ
  label : FreshnessLabel
deriving DecidableEq, Repr

/-- Modelled from the spec: the error taxonomy of the freshness scorer
(`InvalidConfidenceError`, `MissingTimestampError`). -/
inductive FreshnessError where
  | invalidConfidence
  | missingTimestamp
deriving DecidableEq, Repr

/-- Modelled from the spec: the belief-like record consumed by
`calculate_freshness`: `confidence.overall`, the two timestamps, the
validity window, and whether the belief is superseded (non-head in its
chain). -/
structure ScorerBelief where
  confidence_overall : ℚ
  created_at : Option Int
  modified_at : Option Int
  validity : TemporalValidity
  superseded : Bool
deriving DecidableEq, Repr

/-- Modelled from the spec: the configured decay half-life (a named
configuration constant; the decay factor halves after this much age). -/
def decayHalfLife : ℚ := 30

/-- Modelled from the spec: the fixed supersession penalty multiplier
(the spec suggests 0.3). -/
def supersessionPenalty : ℚ := 3 / 10

/-- Modelled from the spec: the label threshold above which a score is
`fresh` (a named configuration constant). -/
def freshThreshold : ℚ := 7 / 10

/-- Modelled from the spec: the label threshold above which a score is
`aging` (a named configuration constant). -/
def agingThreshold : ℚ := 4 / 10

/-- Modelled from the spec: the age-based decay factor, a monotonically
decreasing function of the age with half-life `decayHalfLife`, equal to
1 at age 0, strictly positive for every finite age, and approaching 0
asymptotically. Negative ages clamp to 0. -/
def decayFactor (age : Int) : ℚ :=
  decayHalfLife / (decayHalfLife + ((max age 0 : Int) : ℚ))

/-- Modelled from the spec: the timestamp supplying the basis for age
computation, preferring `modified_at` and falling back to
`created_at`. -/
def ageBasis (b : ScorerBelief) : Option Int :=
  match b.modified_at with
  | some m => some m
  | none => b.created_at

/-- Clamp a score into [0, 1]. -/
def clamp01 (q : ℚ) : ℚ := max 0 (min 1 q)

/-- Modelled from the spec: the numeric part of the freshness
algorithm. An expired window clamps the decay contribution to its
minimum; otherwise the age-based decay factor applies; the factor is
multiplied by the confidence, and a superseded belief receives the
fixed penalty multiplier. -/
def rawScore (b : ScorerBelief) (now ts : Int) : ℚ :=
  let decay : ℚ :=
    if b.validity.is_expired now then 0 else decayFactor (now - ts)
  let base := decay * b.confidence_overall
  if b.superseded then base * supersessionPenalty else base

/-- Modelled from the spec: `freshness_label(score)` maps a score
through the fixed, non-overlapping thresholds. -/
def freshness_label (score : ℚ) : FreshnessLabel :=
  if freshThreshold ≤ score then FreshnessLabel.fresh
  else if agingThreshold ≤ score then FreshnessLabel.aging
  else FreshnessLabel.stale

/-- Modelled from the spec: the label selection as an explicit status
short-circuit: expired and superseded beliefs get their dedicated
labels, bypassing the numeric thresholds. -/
def scoreLabel (b : ScorerBelief) (now : Int) (score : ℚ) :
    FreshnessLabel :=
  if b.validity.is_expired now then FreshnessLabel.expired
  else if b.superseded then FreshnessLabel.superseded
  else freshness_label score

/-- Modelled from the spec: `calculate_freshness(belief, now)`. Fails
with `InvalidConfidenceError` when `confidence.overall` is outside
[0, 1] and with `MissingTimestampError` when both timestamps are
absent; otherwise returns the clamped score and the label. -/
def calculate_freshness (b : ScorerBelief) (now : Int) :
    Except FreshnessError FreshnessResult :=
  if b.confidence_overall < 0 ∨ 1 < b.confidence_overall then
    Except.error FreshnessError.invalidConfidence
  else
    match ageBasis b with
    | none => Except.error FreshnessError.missingTimestamp
    | some ts =>
      Except.ok ⟨clamp01 (rawScore b now ts),
        scoreLabel b now (clamp01 (rawScore b now ts))⟩

/-- A JSON value as passed to the row factory for the confidence
mapping; numbers are decimal literals (mantissa and count of decimal
digits), matching the JSON surface syntax. -/
inductive Json where
  | null
  | bool (b : Bool)
  | num (mantissa : Int) (decimals : Nat)
  | str (s : String)
  | arr (xs : List Json)
  | obj (fields : List (String × Json))

/-- Escaping of one character inside a JSON string literal, as
performed by json.dumps for quotes and backslashes. -/
def escapeChar (c : Char) : String :=
  if c = '\\' then "\\\\"
  else if c = '"' then "\\\""
  else String.singleton c

/-- Escaping of a JSON string body. -/
def escapeString (s : String) : String :=
  String.join (s.toList.map escapeChar)

/-- Rendering of a decimal JSON number, as json.dumps renders a float
literal such as 0.7. -/
def renderNum (m : Int) (d : Nat) : String :=
  if d = 0 then toString m
  else
    let sign := if m < 0 then "-" else ""
    let n := m.natAbs
    let ip := n / 10 ^ d
    let fp := n % 10 ^ d
    let fpStr := toString fp
    let pad := String.mk (List.replicate (d - fpStr.length) '0')
    sign ++ toString ip ++ "." ++ pad ++ fpStr

mutual

/-- json.dumps with Python default separators: items joined by a comma
and a space, keys and values joined by a colon and a space. -/
def jsonDumps : Json → String
  | Json.null => "null"
  | Json.bool b => if b then "true" else "false"
  | Json.num m d => renderNum m d
  | Json.str s => "\"" ++ escapeString s ++ "\""
  | Json.arr xs => "[" ++ jsonDumpsList xs ++ "]"
  | Json.obj fs => "\x7b" ++ jsonDumpsFields fs ++ "\x7d"

/-- Serialization of the elements of a JSON array. -/
def jsonDumpsList : List Json → String
  | [] => ""
  | [x] => jsonDumps x
  | x :: xs => jsonDumps x ++ ", " ++ jsonDumpsList xs

/-- Serialization of the fields of a JSON object. -/
def jsonDumpsFields : List (String × Json) → String
  | [] => ""
  | [(k, v)] => "\"" ++ escapeString k ++ "\": " ++ jsonDumps v
  | (k, v) :: fs =>
      "\"" ++ escapeString k ++ "\": " ++ jsonDumps v ++ ", " ++
        jsonDumpsFields fs

end

/-- Python truthiness of a JSON value: None, False, zero, and empty
containers are falsy. -/
def jsonTruthy : Json → Bool
  | Json.null => false
  | Json.bool b => b
  | Json.num m _ => decide (m ≠ 0)
  | Json.str s => decide (s ≠ "")
  | Json.arr [] => false
  | Json.arr (_ :: _) => true
  | Json.obj [] => false
  | Json.obj (_ :: _) => true

/-- The default confidence mapping of the factory. -/
def defaultConfidence : Json := Json.obj [("overall", Json.num 7 1)]

/-- The Python expression `confidence or default`: the default is used
when the argument is absent, None, or falsy (an empty mapping). -/
def pyOrDefault (c : Option Json) (d : Json) : Json :=
  match c with
  | none => d
  | some j => if jsonTruthy j then j else d

/-- The Python expression `domain_path or default` for the list
argument. -/
def pyOrList (c : Option (List String)) (d : List String) : List String :=
  match c with
  | none => d
  | some l => if l = [] then d else l

/-- A Python value stored in a belief row dict. -/
inductive PyVal where
  | pyNone
  | pyStr (s : String)
  | pyUuid (n : Nat)
  | pyDatetime (t : Int)
  | pyStrList (xs : List String)
  | pyDict (j : Json)

/-- The belief database row produced by the factory of
src/tests/conftest.py, one field per dict key. -/
structure BeliefRow where
  id : PyVal
  content : PyVal
  confidence : PyVal
  domain_path : PyVal
  valid_from : PyVal
  valid_until : PyVal
  created_at : PyVal
  modified_at : PyVal
  source_id : PyVal
  extraction_method : PyVal
  supersedes_id : PyVal
  superseded_by_id : PyVal
  status : PyVal

/-- The keyword arguments consulted by the factory via kwargs.get. -/
structure BeliefKwargs where
  valid_from : Option PyVal
  valid_until : Option PyVal
  created_at : Option PyVal
  modified_at : Option PyVal
  source_id : Option PyVal
  extraction_method : Option PyVal
  supersedes_id : Option PyVal
  superseded_by_id : Option PyVal

/-- kwargs.get with default None. -/
def kwGet (v : Option PyVal) : PyVal := v.getD PyVal.pyNone

/-- kwargs.get with an explicit default. -/
def kwGetD (v : Option PyVal) (d : PyVal) : PyVal := v.getD d

/-- A call with no keyword arguments. -/
def emptyKwargs : BeliefKwargs := ⟨none, none, none, none, none, none, none, none⟩

/-- The belief row factory of src/tests/conftest.py. The
nondeterministic inputs (the fresh uuid4 and datetime.now) are passed
as parameters; Python argument defaults are `content = "Test belief
content"` and `status = "active"` at the call site. -/
def belief_row_factory (freshUuid : Nat) (now : Int) (id : Option Nat)
    (content : String) (confidence : Option Json)
    (domain_path : Option (List String)) (status : String)
    (kwargs : BeliefKwargs) : BeliefRow :=
  ⟨PyVal.pyUuid (id.getD freshUuid),
   PyVal.pyStr content,
   PyVal.pyStr (jsonDumps (pyOrDefault confidence defaultConfidence)),
   PyVal.pyStrList (pyOrList domain_path ["test", "domain"]),
   kwGet kwargs.valid_from,
   kwGet kwargs.valid_until,
   kwGetD kwargs.created_at (PyVal.pyDatetime now),
   kwGetD kwargs.modified_at (PyVal.pyDatetime now),
   kwGet kwargs.source_id,
   kwGet kwargs.extraction_method,
   kwGet kwargs.supersedes_id,
   kwGet kwargs.superseded_by_id,
   PyVal.pyStr status⟩

/-- C1: `is_valid_at t` holds iff `valid_from` is absent or `t` is at
least it, and `valid_until` is absent or `t` is at most it; an interval
with `valid_from` absent is valid for every instant at most
`valid_until`, and one with both bounds absent is valid everywhere. -/
theorem c1_is_valid_at_iff (tv : TemporalValidity) (t : Int) :
    (tv.is_valid_at t = true ↔
      ((tv.valid_from = none ∨ ∃ f, tv.valid_from = some f ∧ f ≤ t) ∧
       (tv.valid_until = none ∨ ∃ u, tv.valid_until = some u ∧ t ≤ u))) ∧
    (tv.valid_from = none → ∀ u, tv.valid_until = some u →
      ∀ s : Int, s ≤ u → tv.is_valid_at s = true) ∧
    (tv.valid_from = none → tv.valid_until = none →
      ∀ s : Int, tv.is_valid_at s = true) := by
  obtain ⟨vf, vu⟩ := tv
  refine ⟨?_, ?_, ?_⟩
  · cases vf <;> cases vu <;>
      simp [TemporalValidity.is_valid_at]
  · intro h u hu s hs
    subst h
    subst hu
    simp [TemporalValidity.is_valid_at]
    exact hs
  · intro h h2 s
    subst h
    subst h2
    simp [TemporalValidity.is_valid_at]

/-- Witness for C1 at a concrete interval and instant. -/
theorem c1_witness :
    (TemporalValidity.mk none none).is_valid_at 5 = true :=
  (c1_is_valid_at_iff ⟨none, none⟩ 5).2.2 rfl rfl 5

/-- C2: with both bounds present, construction fails with
`InvalidIntervalError` exactly when `valid_from > valid_until`, and
succeeds exactly when `valid_from <= valid_until`. -/
theorem c2_create_invalid (f u : Int) :
    (TemporalValidity.create (some f) (some u) =
        Except.error IntervalError.invalidInterval ↔ u < f) ∧
    (∀ tv, TemporalValidity.create (some f) (some u) = Except.ok tv →
      f ≤ u) ∧
    (f ≤ u →
      TemporalValidity.create (some f) (some u) =
        Except.ok ⟨some f, some u⟩) := by
  by_cases h : u < f
  · simp [TemporalValidity.create, if_pos h, h]
  · simp [TemporalValidity.create, if_neg h]
    omega

/-- Witness for C2 at the concrete pair from the spec scenario
(`valid_from` after `valid_until`). -/
theorem c2_witness :
    TemporalValidity.create (some 20240601) (some 20240101) =
      Except.error IntervalError.invalidInterval :=
  (c2_create_invalid 20240601 20240101).1.mpr (by decide)

/-- `posAux` locates the element at position `j` of a duplicate-free
list, shifted by the starting offset `k`. -/
theorem posAux_get :
    ∀ (xs : List Nat), xs.Nodup → ∀ (j : Nat) (hj : j < xs.length) (k : Nat),
      posAux xs (xs.get ⟨j, hj⟩) k = some (k + j) := by
  intro xs
  induction xs with
  | nil =>
    intro _ j hj
    simp at hj
  | cons x t ih =>
    intro hnd j hj k
    match j with
    | 0 => simp [posAux]
    | j + 1 =>
      have hj' : j < t.length := by simpa using hj
      have hx : x ≠ t.get ⟨j, hj'⟩ := by
        intro hEq
        exact (List.nodup_cons.mp hnd).1 (hEq ▸ List.get_mem t j hj')
      have hgc : (x :: t).get ⟨j + 1, hj⟩ = t.get ⟨j, hj'⟩ := rfl
      rw [hgc]
      simp only [posAux, if_neg hx]
      rw [ih (List.nodup_cons.mp hnd).2 j hj' (k + 1)]
      congr 1
      omega

/-- Resolving a member of a duplicate-free linear chain yields its
neighbor links. -/
theorem linearLookup_get (ids : List Nat) (hnd : ids.Nodup)
    (k : Nat) (hk : k < ids.length) :
    linearLookup ids (ids.get ⟨k, hk⟩) =
      some (if k = 0 then none else ids[k - 1]?, ids[k + 1]?) := by
  unfold linearLookup
  rw [posAux_get ids hnd k hk 0]
  simp

/-- Peeling one element off a `take`-then-`drop` segment of a list. -/
theorem take_drop_succ (l : List Nat) (m k : Nat) (hk : k < m)
    (hm : m ≤ l.length) :
    (l.take m).drop k =
      l.get ⟨k, by omega⟩ :: (l.take m).drop (k + 1) := by
  have hlen : k < (l.take m).length := by
    simp
    omega
  rw [List.drop_eq_getElem_cons hlen]
  congr 1
  simp [List.get_eq_getElem]

/-- In a duplicate-free list, the element at index `k` does not occur
in the part of the list beyond an index `j > k`, even after truncation
by `take`. -/
theorem get_not_mem_take_drop (l : List Nat) (hnd : l.Nodup)
    (k j m : Nat) (hk : k < l.length) (hkj : k < j) :
    l.get ⟨k, hk⟩ ∉ (l.take m).drop j := by
  intro hmem
  have hmem2 : l.get ⟨k, hk⟩ ∈ l.drop j := by
    rw [List.drop_take] at hmem
    exact List.mem_of_mem_take hmem
  have hlt : k < (l.take j).length := by
    simp
    omega
  have h1 : l.get ⟨k, hk⟩ ∈ l.take j := by
    have hmm := List.get_mem (l.take j) k hlt
    simpa [List.get_eq_getElem] using hmm
  exact List.disjoint_take_drop hnd (Nat.le_refl j) h1 hmem2

/-- One-step unfolding of the backward walk. -/
theorem walkBack_succ (lookup : Nat → Option (Option Nat × Option Nat))
    (fuel cur : Nat) (acc : List Nat) :
    walkBack lookup (fuel + 1) cur acc =
      match lookup cur with
      | none => Except.error (ChainError.unresolved cur)
      | some (sup, _) =>
        match sup with
        | none => Except.ok (cur :: acc, fuel)
        | some p =>
          if p ∈ cur :: acc then Except.error ChainError.broken
          else walkBack lookup fuel p (cur :: acc) := rfl

/-- Backward step at a member whose `supersedes` link is present. -/
theorem walkBack_step (lookup : Nat → Option (Option Nat × Option Nat))
    (fuel cur : Nat) (acc : List Nat) (p : Nat) (sby : Option Nat)
    (hl : lookup cur = some (some p, sby)) :
    walkBack lookup (fuel + 1) cur acc =
      if p ∈ cur :: acc then Except.error ChainError.broken
      else walkBack lookup fuel p (cur :: acc) := by
  rw [walkBack_succ, hl]

/-- Backward step at the chain root (no `supersedes` link). -/
theorem walkBack_root (lookup : Nat → Option (Option Nat × Option Nat))
    (fuel cur : Nat) (acc : List Nat) (sby : Option Nat)
    (hl : lookup cur = some (none, sby)) :
    walkBack lookup (fuel + 1) cur acc = Except.ok (cur :: acc, fuel) := by
  rw [walkBack_succ, hl]

/-- One-step unfolding of the forward walk. -/
theorem walkFwd_succ (lookup : Nat → Option (Option Nat × Option Nat))
    (fuel cur : Nat) (acc : List Nat) :
    walkFwd lookup (fuel + 1) cur acc =
      match lookup cur with
      | none => Except.error (ChainError.unresolved cur)
      | some (_, sby) =>
        match sby with
        | none => Except.ok (acc ++ [cur])
        | some nxt =>
          if nxt ∈ acc ++ [cur] then Except.error ChainError.broken
          else walkFwd lookup fuel nxt (acc ++ [cur]) := rfl

/-- Forward step at a member whose `superseded_by` link is present. -/
theorem walkFwd_step (lookup : Nat → Option (Option Nat × Option Nat))
    (fuel cur : Nat) (acc : List Nat) (sup : Option Nat) (nxt : Nat)
    (hl : lookup cur = some (sup, some nxt)) :
    walkFwd lookup (fuel + 1) cur acc =
      if nxt ∈ acc ++ [cur] then Except.error ChainError.broken
      else walkFwd lookup fuel nxt (acc ++ [cur]) := by
  rw [walkFwd_succ, hl]

/-- Forward step at the chain head (no `superseded_by` link). -/
theorem walkFwd_last (lookup : Nat → Option (Option Nat × Option Nat))
    (fuel cur : Nat) (acc : List Nat) (sup : Option Nat)
    (hl : lookup cur = some (sup, none)) :
    walkFwd lookup (fuel + 1) cur acc = Except.ok (acc ++ [cur]) := by
  rw [walkFwd_succ, hl]

/-- Backward phase over a duplicate-free linear chain: starting at
index `k` (at most the seed index `s`), with the segment strictly
between `k` and `s` already collected, the walk reaches the root and
returns the whole prefix of the chain up to `s`, spending one unit of
fuel per visited member. -/
theorem walkBack_linear (ids : List Nat) (hnd : ids.Nodup)
    (s : Nat) (hs : s < ids.length) :
    ∀ k, ∀ hk : k ≤ s, ∀ fuel,
      walkBack (linearLookup ids) (fuel + (k + 1))
        (ids.get ⟨k, by omega⟩) ((ids.take (s + 1)).drop (k + 1)) =
      Except.ok (ids.take (s + 1), fuel) := by
  intro k
  induction k with
  | zero =>
    intro _ fuel
    have h1 : fuel + (0 + 1) = fuel + 1 := by omega
    have hl : linearLookup ids (ids.get ⟨0, by omega⟩) =
        some (none, ids[0 + 1]?) := by
      rw [linearLookup_get ids hnd 0 (by omega)]
      simp
    rw [h1, walkBack_root (linearLookup ids) fuel _ _ _ hl]
    have h2 : List.take (s + 1) ids =
        ids.get ⟨0, by omega⟩ :: (ids.take (s + 1)).drop (0 + 1) := by
      have h3 := take_drop_succ ids (s + 1) 0 (by omega) (by omega)
      rwa [List.drop_zero] at h3
    rw [← h2]
  | succ k ih =>
    intro hk fuel
    have h1 : fuel + (k + 1 + 1) = (fuel + (k + 1)) + 1 := by omega
    have hgk : ids[k + 1 - 1]? = some (ids.get ⟨k, by omega⟩) := by
      simp [List.get_eq_getElem]
    have hl : linearLookup ids (ids.get ⟨k + 1, by omega⟩) =
        some (some (ids.get ⟨k, by omega⟩), ids[k + 1 + 1]?) := by
      rw [linearLookup_get ids hnd (k + 1) (by omega),
        if_neg (Nat.succ_ne_zero k), hgk]
    rw [h1, walkBack_step (linearLookup ids) (fuel + (k + 1)) _ _ _ _ hl]
    have hseg : ids.get ⟨k + 1, by omega⟩ ::
        (ids.take (s + 1)).drop (k + 1 + 1) =
        (ids.take (s + 1)).drop (k + 1) :=
      (take_drop_succ ids (s + 1) (k + 1) (by omega) (by omega)).symm
    rw [hseg]
    have hnm : ids.get ⟨k, by omega⟩ ∉ (ids.take (s + 1)).drop (k + 1) :=
      get_not_mem_take_drop ids hnd k (k + 1) (s + 1) (by omega) (by omega)
    rw [if_neg hnm]
    exact ih (by omega) fuel

/-- In a duplicate-free list, the element at index `k` does not occur
in a prefix of length at most `k`. -/
theorem get_not_mem_take (l : List Nat) (hnd : l.Nodup) (k j : Nat)
    (hk : k < l.length) (hjk : j ≤ k) :
    l.get ⟨k, hk⟩ ∉ l.take j := by
  intro hmem
  have hlt : k - j < (l.drop j).length := by
    simp
    omega
  have h2 : l.get ⟨k, hk⟩ ∈ l.drop j := by
    have hget : (l.drop j).get ⟨k - j, hlt⟩ = l.get ⟨k, hk⟩ := by
      simp only [List.get_eq_getElem, List.getElem_drop]
      congr 1
      omega
    exact hget ▸ List.get_mem (l.drop j) (k - j) hlt
  exact List.disjoint_take_drop hnd (Nat.le_refl j) hmem h2

/-- Forward phase over a duplicate-free linear chain: starting at index
`k` with the prefix before `k` already collected, the walk reaches the
chain head and returns the full chain, spending one unit of fuel per
visited member. -/
theorem walkFwd_linear (ids : List Nat) (hnd : ids.Nodup) :
    ∀ r k, ∀ hk : k < ids.length, ids.length - 1 - k = r → ∀ fuel,
      walkFwd (linearLookup ids) (fuel + (ids.length - k))
        (ids.get ⟨k, hk⟩) (ids.take k) =
      Except.ok ids := by
  intro r
  induction r with
  | zero =>
    intro k hk hr fuel
    have hnone : ids[k + 1]? = none := by
      rw [List.getElem?_eq_none]
      omega
    have hl : linearLookup ids (ids.get ⟨k, hk⟩) =
        some (if k = 0 then none else ids[k - 1]?, none) := by
      rw [linearLookup_get ids hnd k hk, hnone]
    have h1 : fuel + (ids.length - k) = fuel + 1 := by omega
    rw [h1, walkFwd_last (linearLookup ids) fuel _ _ _ hl]
    have hcat : ids.take k ++ [ids.get ⟨k, hk⟩] = ids.take (k + 1) := by
      have h2 := List.take_concat_get ids k hk
      rw [List.concat_eq_append] at h2
      simpa [List.get_eq_getElem] using h2
    rw [hcat]
    have h3 : k + 1 = ids.length := by omega
    rw [h3, List.take_length]
  | succ r ihr =>
    intro k hk hr fuel
    have hk1 : k + 1 < ids.length := by omega
    have hsome : ids[k + 1]? = some (ids.get ⟨k + 1, hk1⟩) := by
      simp [List.get_eq_getElem]
    have hl : linearLookup ids (ids.get ⟨k, hk⟩) =
        some (if k = 0 then none else ids[k - 1]?,
          some (ids.get ⟨k + 1, hk1⟩)) := by
      rw [linearLookup_get ids hnd k hk, hsome]
    have h1 : fuel + (ids.length - k) =
        (fuel + (ids.length - (k + 1))) + 1 := by omega
    rw [h1, walkFwd_step (linearLookup ids) _ _ _ _ _ hl]
    have hcat : ids.take k ++ [ids.get ⟨k, hk⟩] = ids.take (k + 1) := by
      have h2 := List.take_concat_get ids k hk
      rw [List.concat_eq_append] at h2
      simpa [List.get_eq_getElem] using h2
    rw [hcat]
    have hnm : ids.get ⟨k + 1, hk1⟩ ∉ ids.take (k + 1) :=
      get_not_mem_take ids hnd (k + 1) (k + 1) hk1 (Nat.le_refl _)
    rw [if_neg hnm]
    exact ihr (k + 1) hk1 (by omega) fuel

/-- The forward phase when the seed has no `superseded_by` link. -/
theorem buildFwd_none (lookup : Nat → Option (Option Nat × Option Nat))
    (seed : Nat) (back : List Nat) (fuel : Nat) (x : Option Nat)
    (hl : lookup seed = some (x, none)) :
    buildFwdPhase lookup seed back fuel = Except.ok ⟨back⟩ := by
  unfold buildFwdPhase
  rw [hl]

/-- The forward phase when the seed has a `superseded_by` link that is
not already a member and the forward walk succeeds. -/
theorem buildFwd_step (lookup : Nat → Option (Option Nat × Option Nat))
    (seed : Nat) (back : List Nat) (fuel : Nat) (x : Option Nat)
    (nxt : Nat) (hl : lookup seed = some (x, some nxt))
    (hnm : nxt ∉ back) (ms : List Nat)
    (hw : walkFwd lookup fuel nxt back = Except.ok ms) :
    buildFwdPhase lookup seed back fuel = Except.ok ⟨ms⟩ := by
  unfold buildFwdPhase
  rw [hl]
  show (if nxt ∈ back then Except.error ChainError.broken
    else
      match walkFwd lookup fuel nxt back with
      | Except.error e => Except.error e
      | Except.ok ms2 => Except.ok (SupersessionChain.mk ms2)) =
    Except.ok (SupersessionChain.mk ms)
  rw [if_neg hnm, hw]

/-- C3: over a well-formed linear chain of distinct beliefs, `build`
from any seed member returns exactly the chain members in chronological
oldest-first order, `head` returns the newest member, and `position_of`
maps the member at chronological position `k` to index `k` (a strictly
increasing bijection onto `0..N-1`). -/
theorem c3_linear_chain (ids : List Nat) (hnd : ids.Nodup)
    (hne : ids ≠ []) (s : Nat) (hs : s < ids.length)
    (maxSteps : Nat) (hms : ids.length ≤ maxSteps) :
    SupersessionChain.build (linearLookup ids) (ids.get ⟨s, hs⟩) maxSteps =
      Except.ok ⟨ids⟩ ∧
    SupersessionChain.head ⟨ids⟩ = Except.ok (ids.getLast hne) ∧
    (∀ k, ∀ hk : k < ids.length,
      SupersessionChain.position_of ⟨ids⟩ (ids.get ⟨k, hk⟩) =
        Except.ok k) := by
  refine ⟨?_, ?_, ?_⟩
  · have hdrop : (ids.take (s + 1)).drop (s + 1) = [] := by
      apply List.drop_eq_nil_of_le
      simp
    have hb := walkBack_linear ids hnd s hs s (Nat.le_refl s)
      (maxSteps - (s + 1))
    rw [hdrop] at hb
    have hfe : maxSteps - (s + 1) + (s + 1) = maxSteps := by omega
    rw [hfe] at hb
    unfold SupersessionChain.build
    rw [hb]
    show buildFwdPhase (linearLookup ids) (ids.get ⟨s, hs⟩)
      (ids.take (s + 1)) (maxSteps - (s + 1)) = Except.ok ⟨ids⟩
    by_cases hlast : s + 1 = ids.length
    · have hnone : ids[s + 1]? = none := by
        rw [List.getElem?_eq_none]
        omega
      have hl : linearLookup ids (ids.get ⟨s, hs⟩) =
          some (if s = 0 then none else ids[s - 1]?, none) := by
        rw [linearLookup_get ids hnd s hs, hnone]
      rw [buildFwd_none _ _ _ _ _ hl]
      have htake : ids.take (s + 1) = ids := by
        rw [hlast]
        exact List.take_length ids
      rw [htake]
    · have hk1 : s + 1 < ids.length := by omega
      have hsome : ids[s + 1]? = some (ids.get ⟨s + 1, hk1⟩) := by
        simp [List.get_eq_getElem]
      have hl : linearLookup ids (ids.get ⟨s, hs⟩) =
          some (if s = 0 then none else ids[s - 1]?,
            some (ids.get ⟨s + 1, hk1⟩)) := by
        rw [linearLookup_get ids hnd s hs, hsome]
      have hnm : ids.get ⟨s + 1, hk1⟩ ∉ ids.take (s + 1) :=
        get_not_mem_take ids hnd (s + 1) (s + 1) hk1 (Nat.le_refl _)
      have hw : walkFwd (linearLookup ids) (maxSteps - (s + 1))
          (ids.get ⟨s + 1, hk1⟩) (ids.take (s + 1)) = Except.ok ids := by
        have hfw := walkFwd_linear ids hnd (ids.length - 1 - (s + 1))
          (s + 1) hk1 rfl (maxSteps - ids.length)
        have hfe2 : maxSteps - ids.length + (ids.length - (s + 1)) =
            maxSteps - (s + 1) := by omega
        rw [hfe2] at hfw
        exact hfw
      exact buildFwd_step _ _ _ _ _ _ hl hnm ids hw
  · unfold SupersessionChain.head
    rw [List.getLast?_eq_getLast ids hne]
  · intro k hk
    unfold SupersessionChain.position_of
    rw [posAux_get ids hnd k hk 0]
    show Except.ok (0 + k) = Except.ok k
    rw [Nat.zero_add]

/-- Witness for C3 on a concrete three-member chain seeded from the
middle member. -/
theorem c3_witness :
    SupersessionChain.build (linearLookup [10, 20, 30]) 20 1000 =
      Except.ok ⟨[10, 20, 30]⟩ :=
  (c3_linear_chain [10, 20, 30] (by decide) (by decide) 1 (by decide)
    1000 (by decide)).1

/-- The fuel-exhausted base case of the backward walk. -/
theorem walkBack_zero (lookup : Nat → Option (Option Nat × Option Nat))
    (cur : Nat) (acc : List Nat) :
    walkBack lookup 0 cur acc = Except.error ChainError.tooLong := rfl

/-- The fuel-exhausted base case of the forward walk. -/
theorem walkFwd_zero (lookup : Nat → Option (Option Nat × Option Nat))
    (cur : Nat) (acc : List Nat) :
    walkFwd lookup 0 cur acc = Except.error ChainError.tooLong := rfl

/-- A successful backward walk from a duplicate-free state returns a
duplicate-free member list: every revisit is rejected as broken. -/
theorem walkBack_ok_nodup (lookup : Nat → Option (Option Nat × Option Nat)) :
    ∀ fuel cur acc l rem, (cur :: acc).Nodup →
      walkBack lookup fuel cur acc = Except.ok (l, rem) → l.Nodup := by
  intro fuel
  induction fuel with
  | zero =>
    intro cur acc l rem h hw
    rw [walkBack_zero] at hw
    simp at hw
  | succ fuel ih =>
    intro cur acc l rem h hw
    rw [walkBack_succ] at hw
    split at hw
    · simp at hw
    · split at hw
      · simp only [Except.ok.injEq, Prod.mk.injEq] at hw
        obtain ⟨h1, h2⟩ := hw
        subst h1
        exact h
      · split at hw
        · simp at hw
        · rename_i hmem
          exact ih _ _ _ _ (List.nodup_cons.mpr ⟨hmem, h⟩) hw

/-- A successful forward walk from a duplicate-free state returns a
duplicate-free member list. -/
theorem walkFwd_ok_nodup (lookup : Nat → Option (Option Nat × Option Nat)) :
    ∀ fuel cur acc l, (acc ++ [cur]).Nodup →
      walkFwd lookup fuel cur acc = Except.ok l → l.Nodup := by
  intro fuel
  induction fuel with
  | zero =>
    intro cur acc l h hw
    rw [walkFwd_zero] at hw
    simp at hw
  | succ fuel ih =>
    intro cur acc l h hw
    rw [walkFwd_succ] at hw
    split at hw
    · simp at hw
    · split at hw
      · simp only [Except.ok.injEq] at hw
        subst hw
        exact h
      · split at hw
        · simp at hw
        · rename_i hmem
          refine ih _ _ _ ?_ hw
          refine List.Nodup.append h (List.nodup_singleton _) ?_
          intro a ha hb2
          rw [List.mem_singleton] at hb2
          subst hb2
          exact hmem ha

/-- A successful backward walk spends exactly one unit of fuel per
collected member. -/
theorem walkBack_ok_length (lookup : Nat → Option (Option Nat × Option Nat)) :
    ∀ fuel cur acc l rem,
      walkBack lookup fuel cur acc = Except.ok (l, rem) →
      l.length + rem = acc.length + fuel := by
  intro fuel
  induction fuel with
  | zero =>
    intro cur acc l rem hw
    rw [walkBack_zero] at hw
    simp at hw
  | succ fuel ih =>
    intro cur acc l rem hw
    rw [walkBack_succ] at hw
    split at hw
    · simp at hw
    · split at hw
      · simp only [Except.ok.injEq, Prod.mk.injEq] at hw
        obtain ⟨h1, h2⟩ := hw
        subst h1
        subst h2
        simp only [List.length_cons]
        omega
      · split at hw
        · simp at hw
        · have hr := ih _ _ _ _ hw
          simp only [List.length_cons] at hr
          omega

/-- A successful forward walk collects at most one member per unit of
fuel beyond what it started with. -/
theorem walkFwd_ok_length (lookup : Nat → Option (Option Nat × Option Nat)) :
    ∀ fuel cur acc l,
      walkFwd lookup fuel cur acc = Except.ok l →
      l.length ≤ acc.length + fuel := by
  intro fuel
  induction fuel with
  | zero =>
    intro cur acc l hw
    rw [walkFwd_zero] at hw
    simp at hw
  | succ fuel ih =>
    intro cur acc l hw
    rw [walkFwd_succ] at hw
    split at hw
    · simp at hw
    · split at hw
      · simp only [Except.ok.injEq] at hw
        subst hw
        simp only [List.length_append, List.length_cons, List.length_nil]
        omega
      · split at hw
        · simp at hw
        · have hr := ih _ _ _ hw
          simp only [List.length_append, List.length_cons, List.length_nil] at hr
          omega

/-- Any chain accepted by `build` has duplicate-free members: a
revisited id can never be silently returned. -/
theorem build_ok_nodup (lookup : Nat → Option (Option Nat × Option Nat))
    (seed maxSteps : Nat) (c : SupersessionChain)
    (h : SupersessionChain.build lookup seed maxSteps = Except.ok c) :
    c.members.Nodup := by
  unfold SupersessionChain.build at h
  split at h
  · simp at h
  · rename_i back fuel heq
    have hbn : back.Nodup :=
      walkBack_ok_nodup lookup maxSteps seed [] back fuel
        (List.nodup_singleton seed) heq
    unfold buildFwdPhase at h
    split at h
    · simp at h
    · split at h
      · simp only [Except.ok.injEq] at h
        subst h
        exact hbn
      · split at h
        · simp at h
        · rename_i hmem
          split at h
          · simp at h
          · rename_i ms hw
            simp only [Except.ok.injEq] at h
            subst h
            refine walkFwd_ok_nodup lookup fuel _ back ms ?_ hw
            refine List.Nodup.append hbn (List.nodup_singleton _) ?_
            intro a ha hb2
            rw [List.mem_singleton] at hb2
            subst hb2
            exact hmem ha

/-- Any chain accepted by `build` has at most `maxSteps` members. -/
theorem build_ok_length (lookup : Nat → Option (Option Nat × Option Nat))
    (seed maxSteps : Nat) (c : SupersessionChain)
    (h : SupersessionChain.build lookup seed maxSteps = Except.ok c) :
    c.members.length ≤ maxSteps := by
  unfold SupersessionChain.build at h
  split at h
  · simp at h
  · rename_i back fuel heq
    have hbl : back.length + fuel = [].length + maxSteps :=
      walkBack_ok_length lookup maxSteps seed [] back fuel heq
    simp only [List.length_nil] at hbl
    unfold buildFwdPhase at h
    split at h
    · simp at h
    · split at h
      · simp only [Except.ok.injEq] at h
        subst h
        show back.length ≤ maxSteps
        omega
      · split at h
        · simp at h
        · split at h
          · simp at h
          · rename_i ms hw
            simp only [Except.ok.injEq] at h
            subst h
            have hfl : ms.length ≤ back.length + fuel :=
              walkFwd_ok_length lookup fuel _ back ms hw
            show ms.length ≤ maxSteps
            omega

/-- C4: the spec cycle (1 supersedes 2 and 2 supersedes 1) fails with
`BrokenChainError`; a dangling link fails with `UnresolvedLinkError`
carrying the missing id 2; the two failures are distinct values; and in
general no id is revisited in any chain that `build` accepts. -/
theorem c4_cycle_vs_dangling :
    SupersessionChain.build cycleLookup 1 defaultMaxChainSteps =
      Except.error ChainError.broken ∧
    SupersessionChain.build danglingLookup 1 defaultMaxChainSteps =
      Except.error (ChainError.unresolved 2) ∧
    (∀ i, ChainError.broken ≠ ChainError.unresolved i) ∧
    (∀ lookup seed maxSteps c,
      SupersessionChain.build lookup seed maxSteps = Except.ok c →
        c.members.Nodup) := by
  refine ⟨rfl, rfl, ?_, ?_⟩
  · intro i h
    cases h
  · intro lookup seed maxSteps c h
    exact build_ok_nodup lookup seed maxSteps c h

/-- Witness for C4 discharging the hypothesis of its final conjunct at
a concrete accepted chain. -/
theorem c4_witness : (SupersessionChain.mk [5, 6]).members.Nodup :=
  c4_cycle_vs_dangling.2.2.2 (linearLookup [5, 6]) 5 1000 ⟨[5, 6]⟩ rfl

/-- C5: `build` terminates with an answer for every lookup; any
accepted chain has at most `maxSteps` members, the budget is a
configurable parameter with default 1000, and exhausting it yields
`ChainTooLongError` instead of an unbounded traversal, as on the
forward-infinite link structure with a budget of 5. -/
theorem c5_bounded_traversal :
    (∀ lookup seed maxSteps c,
      SupersessionChain.build lookup seed maxSteps = Except.ok c →
        c.members.length ≤ maxSteps) ∧
    SupersessionChain.build endlessLookup 0 5 =
      Except.error ChainError.tooLong ∧
    defaultMaxChainSteps = 1000 := by
  refine ⟨?_, rfl, rfl⟩
  intro lookup seed maxSteps c h
  exact build_ok_length lookup seed maxSteps c h

/-- Witness for C5 discharging the hypothesis of its first conjunct at
a concrete accepted chain. -/
theorem c5_witness : (SupersessionChain.mk [7, 8]).members.length ≤ 1000 :=
  c5_bounded_traversal.1 (linearLookup [7, 8]) 7 1000 ⟨[7, 8]⟩ rfl

/-- Expiry is monotone in `now`: once past `valid_until`, always
past it. -/
theorem is_expired_mono (tv : TemporalValidity) (now1 now2 : Int)
    (h : now1 ≤ now2) (h1 : tv.is_expired now1 = true) :
    tv.is_expired now2 = true := by
  obtain ⟨vf, vu⟩ := tv
  cases vu with
  | none =>
    simp [TemporalValidity.is_expired] at h1
  | some u =>
    simp [TemporalValidity.is_expired] at h1 ⊢
    omega

/-- The clamped age is nonnegative as a rational. -/
theorem decayFactor_cast_nonneg (age : Int) :
    (0 : ℚ) ≤ ((max age 0 : Int) : ℚ) := by
  exact_mod_cast le_max_right age 0

/-- The decay factor is strictly positive at every finite age. -/
theorem decayFactor_pos (age : Int) : 0 < decayFactor age := by
  have h := decayFactor_cast_nonneg age
  unfold decayFactor decayHalfLife
  apply div_pos (by norm_num)
  have h30 : (0 : ℚ) < 30 := by norm_num
  linarith

/-- The decay factor at age 0 is exactly 1. -/
theorem decayFactor_zero : decayFactor 0 = 1 := by
  norm_num [decayFactor, decayHalfLife]

/-- The decay factor is monotonically non-increasing in the age. -/
theorem decayFactor_antitone (a1 a2 : Int) (h : a1 ≤ a2) :
    decayFactor a2 ≤ decayFactor a1 := by
  have h1 := decayFactor_cast_nonneg a1
  have hcast : ((max a1 0 : Int) : ℚ) ≤ ((max a2 0 : Int) : ℚ) := by
    exact_mod_cast max_le_max h (le_refl (0 : Int))
  unfold decayFactor decayHalfLife
  apply div_le_div_of_nonneg_left (by norm_num) (by linarith)
  linarith

/-- An expired validity window forces the raw score to 0. -/
theorem rawScore_expired (b : ScorerBelief) (now ts : Int)
    (h : b.validity.is_expired now = true) : rawScore b now ts = 0 := by
  unfold rawScore
  rw [h]
  simp

/-- The raw score is nonnegative for nonnegative confidence. -/
theorem rawScore_nonneg (b : ScorerBelief) (now ts : Int)
    (hc : 0 ≤ b.confidence_overall) : 0 ≤ rawScore b now ts := by
  unfold rawScore
  have hpen : (0 : ℚ) ≤ supersessionPenalty := by
    norm_num [supersessionPenalty]
  have hdf : (0 : ℚ) ≤ decayFactor (now - ts) :=
    le_of_lt (decayFactor_pos (now - ts))
  cases hexp : b.validity.is_expired now <;>
    cases hsup : b.superseded <;> simp [hexp, hsup]
  · exact mul_nonneg hdf hc
  · exact mul_nonneg (mul_nonneg hdf hc) hpen

/-- The raw score is monotonically non-increasing in `now` for a fixed
belief and timestamp basis. -/
theorem rawScore_antitone (b : ScorerBelief) (ts now1 now2 : Int)
    (h12 : now1 ≤ now2) (hc : 0 ≤ b.confidence_overall) :
    rawScore b now2 ts ≤ rawScore b now1 ts := by
  cases hexp2 : b.validity.is_expired now2 with
  | true =>
    rw [rawScore_expired b now2 ts hexp2]
    exact rawScore_nonneg b now1 ts hc
  | false =>
    have hexp1 : b.validity.is_expired now1 = false := by
      cases hx : b.validity.is_expired now1
      · rfl
      · rw [is_expired_mono b.validity now1 now2 h12 hx] at hexp2
        exact absurd hexp2 (by simp)
    have hd : decayFactor (now2 - ts) ≤ decayFactor (now1 - ts) :=
      decayFactor_antitone (now1 - ts) (now2 - ts) (by omega)
    have hpen : (0 : ℚ) ≤ supersessionPenalty := by
      norm_num [supersessionPenalty]
    unfold rawScore
    cases hsup : b.superseded <;> simp [hexp1, hexp2, hsup]
    · exact mul_le_mul_of_nonneg_right hd hc
    · exact mul_le_mul_of_nonneg_right
        (mul_le_mul_of_nonneg_right hd hc) hpen

/-- The clamp into [0, 1] yields a nonnegative value. -/
theorem clamp01_nonneg (q : ℚ) : 0 ≤ clamp01 q := le_max_left 0 _

/-- The clamp into [0, 1] is monotone. -/
theorem clamp01_mono {a b : ℚ} (h : a ≤ b) : clamp01 a ≤ clamp01 b :=
  max_le_max (le_refl 0) (min_le_min (le_refl 1) h)

/-- Characterization of a successful `calculate_freshness` call: the
confidence is in range, a timestamp basis exists, and the result is
the clamped raw score with the status-aware label. -/
theorem calculate_freshness_ok (b : ScorerBelief) (now : Int)
    (r : FreshnessResult) (h : calculate_freshness b now = Except.ok r) :
    ¬(b.confidence_overall < 0 ∨ 1 < b.confidence_overall) ∧
    ∃ ts, ageBasis b = some ts ∧
      r = ⟨clamp01 (rawScore b now ts),
        scoreLabel b now (clamp01 (rawScore b now ts))⟩ := by
  unfold calculate_freshness at h
  split at h
  · simp at h
  · rename_i hconf
    split at h
    · simp at h
    · rename_i ts hts
      simp only [Except.ok.injEq] at h
      exact ⟨hconf, ts, hts, h.symm⟩

/-- C6: for a fixed belief (fixed confidence and chain position) the
freshness score is monotonically non-increasing in the age: moving
`now` later never raises the score; the decay factor is exactly 1 at
age 0 and strictly positive at every finite age. -/
theorem c6_score_antitone_in_age :
    (∀ (b : ScorerBelief) (now1 now2 : Int) (r1 r2 : FreshnessResult),
      now1 ≤ now2 →
      calculate_freshness b now1 = Except.ok r1 →
      calculate_freshness b now2 = Except.ok r2 →
      r2.score ≤ r1.score) ∧
    decayFactor 0 = 1 ∧
    (∀ age : Int, 0 < decayFactor age) := by
  refine ⟨?_, decayFactor_zero, decayFactor_pos⟩
  intro b now1 now2 r1 r2 h12 h1 h2
  obtain ⟨hconf, ts1, hts1, hr1⟩ := calculate_freshness_ok b now1 r1 h1
  obtain ⟨_, ts2, hts2, hr2⟩ := calculate_freshness_ok b now2 r2 h2
  rw [hts1] at hts2
  simp only [Option.some.injEq] at hts2
  subst hts2
  have hc0 : 0 ≤ b.confidence_overall := by
    push_neg at hconf
    exact hconf.1
  subst hr1
  subst hr2
  exact clamp01_mono (rawScore_antitone b ts1 now1 now2 h12 hc0)

/-- Witness for C6 at a concrete belief evaluated ten time units
apart. -/
theorem c6_witness :
    (FreshnessResult.mk (3 / 8) FreshnessLabel.stale).score ≤
      (FreshnessResult.mk (1 / 2) FreshnessLabel.aging).score :=
  c6_score_antitone_in_age.1 ⟨1 / 2, some 0, some 0, ⟨none, none⟩, false⟩
    0 10 ⟨1 / 2, FreshnessLabel.aging⟩ ⟨3 / 8, FreshnessLabel.stale⟩
    (by norm_num)
    (by norm_num [calculate_freshness, ageBasis, rawScore, scoreLabel,
      freshness_label, clamp01, decayFactor, decayHalfLife,
      supersessionPenalty, freshThreshold, agingThreshold,
      TemporalValidity.is_expired])
    (by norm_num [calculate_freshness, ageBasis, rawScore, scoreLabel,
      freshness_label, clamp01, decayFactor, decayHalfLife,
      supersessionPenalty, freshThreshold, agingThreshold,
      TemporalValidity.is_expired])

/-- Counterexample for C7: a belief that is both superseded and past
its `valid_until` receives the label `expired`, not `superseded`, so a
superseded belief does not always get the dedicated `superseded`
label. -/
theorem c7_counterexample :
    (ScorerBelief.mk (1 / 2) (some 0) (some 0) ⟨none, some 5⟩
      true).superseded = true ∧
    (5 : Int) < 10 ∧
    calculate_freshness
      (ScorerBelief.mk (1 / 2) (some 0) (some 0) ⟨none, some 5⟩ true) 10 =
      Except.ok ⟨0, FreshnessLabel.expired⟩ ∧
    FreshnessLabel.expired ≠ FreshnessLabel.superseded := by
  refine ⟨rfl, by norm_num, ?_, by decide⟩
  norm_num [calculate_freshness, ageBasis, rawScore, scoreLabel,
    freshness_label, clamp01, decayFactor, decayHalfLife,
    supersessionPenalty, freshThreshold, agingThreshold,
    TemporalValidity.is_expired]

/-- C7 (amended): a belief past its `valid_until` always receives the
label `expired` regardless of confidence or age; a superseded belief
that is not expired receives the dedicated label `superseded`
independent of its numeric score. -/
theorem c7_expired_superseded_labels :
    (∀ (b : ScorerBelief) (now : Int) (r : FreshnessResult) (u : Int),
      b.validity.valid_until = some u → u < now →
      calculate_freshness b now = Except.ok r →
      r.label = FreshnessLabel.expired) ∧
    (∀ (b : ScorerBelief) (now : Int) (r : FreshnessResult),
      b.superseded = true → b.validity.is_expired now = false →
      calculate_freshness b now = Except.ok r →
      r.label = FreshnessLabel.superseded) := by
  constructor
  · intro b now r u hu hun h
    obtain ⟨_, ts, hts, hr⟩ := calculate_freshness_ok b now r h
    subst hr
    show scoreLabel b now (clamp01 (rawScore b now ts)) =
      FreshnessLabel.expired
    have hexp : b.validity.is_expired now = true := by
      unfold TemporalValidity.is_expired
      rw [hu]
      simp
      omega
    unfold scoreLabel
    rw [hexp]
    simp
  · intro b now r hsup hexp h
    obtain ⟨_, ts, hts, hr⟩ := calculate_freshness_ok b now r h
    subst hr
    show scoreLabel b now (clamp01 (rawScore b now ts)) =
      FreshnessLabel.superseded
    unfold scoreLabel
    rw [hexp, hsup]
    simp

/-- Witness for C7 (amended) at a concrete expired belief and a
concrete superseded, non-expired belief. -/
theorem c7_witness :
    (FreshnessResult.mk 0 FreshnessLabel.expired).label =
      FreshnessLabel.expired ∧
    (FreshnessResult.mk (27 / 100) FreshnessLabel.superseded).label =
      FreshnessLabel.superseded := by
  constructor
  · exact c7_expired_superseded_labels.1
      ⟨1 / 2, some 0, some 0, ⟨none, some 5⟩, false⟩ 10
      ⟨0, FreshnessLabel.expired⟩ 5 rfl (by norm_num)
      (by norm_num [calculate_freshness, ageBasis, rawScore, scoreLabel,
        freshness_label, clamp01, decayFactor, decayHalfLife,
        supersessionPenalty, freshThreshold, agingThreshold,
        TemporalValidity.is_expired])
  · exact c7_expired_superseded_labels.2
      ⟨9 / 10, some 0, some 0, ⟨none, none⟩, true⟩ 0
      ⟨27 / 100, FreshnessLabel.superseded⟩ rfl rfl
      (by norm_num [calculate_freshness, ageBasis, rawScore, scoreLabel,
        freshness_label, clamp01, decayFactor, decayHalfLife,
        supersessionPenalty, freshThreshold, agingThreshold,
        TemporalValidity.is_expired])

/-- Counterexample for C8: for a superseded (non-expired) belief the
stored label is the dedicated `superseded`, while `freshness_label` of
the stored score is a threshold label (`stale`), so the round-trip
fails on such beliefs. -/
theorem c8_counterexample :
    calculate_freshness
      (ScorerBelief.mk (9 / 10) (some 0) (some 0) ⟨none, none⟩ true) 0 =
      Except.ok ⟨27 / 100, FreshnessLabel.superseded⟩ ∧
    freshness_label (27 / 100) = FreshnessLabel.stale ∧
    FreshnessLabel.stale ≠ FreshnessLabel.superseded := by
  refine ⟨?_, ?_, by decide⟩
  · norm_num [calculate_freshness, ageBasis, rawScore, scoreLabel,
      freshness_label, clamp01, decayFactor, decayHalfLife,
      supersessionPenalty, freshThreshold, agingThreshold,
      TemporalValidity.is_expired]
  · norm_num [freshness_label, freshThreshold, agingThreshold]

/-- C8 (amended): for every belief that is neither superseded nor
expired at `now`, applying `freshness_label` to the score of the
`calculate_freshness` result yields exactly the label of that same
result. -/
theorem c8_label_roundtrip (b : ScorerBelief) (now : Int)
    (r : FreshnessResult) (hsup : b.superseded = false)
    (hexp : b.validity.is_expired now = false)
    (h : calculate_freshness b now = Except.ok r) :
    freshness_label r.score = r.label := by
  obtain ⟨_, ts, hts, hr⟩ := calculate_freshness_ok b now r h
  subst hr
  show freshness_label (clamp01 (rawScore b now ts)) =
    scoreLabel b now (clamp01 (rawScore b now ts))
  unfold scoreLabel
  rw [hexp, hsup]
  simp

/-- Witness for C8 (amended) at a concrete active belief. -/
theorem c8_witness :
    freshness_label (FreshnessResult.mk (1 / 2) FreshnessLabel.aging).score =
      (FreshnessResult.mk (1 / 2) FreshnessLabel.aging).label :=
  c8_label_roundtrip ⟨1 / 2, some 0, some 0, ⟨none, none⟩, false⟩ 0
    ⟨1 / 2, FreshnessLabel.aging⟩ rfl rfl
    (by norm_num [calculate_freshness, ageBasis, rawScore, scoreLabel,
      freshness_label, clamp01, decayFactor, decayHalfLife,
      supersessionPenalty, freshThreshold, agingThreshold,
      TemporalValidity.is_expired])

/-- `ageBasis` is absent exactly when both timestamps are absent. -/
theorem ageBasis_eq_none (b : ScorerBelief) :
    ageBasis b = none ↔ b.modified_at = none ∧ b.created_at = none := by
  unfold ageBasis
  cases hm : b.modified_at <;> simp

/-- Counterexample for C9: a belief with confidence outside [0, 1] and
both timestamps absent fails with `InvalidConfidenceError`, not with
`MissingTimestampError`, so the missing-timestamp failure is not
unconditional over beliefs with absent timestamps. -/
theorem c9_counterexample :
    (ScorerBelief.mk 2 none none ⟨none, none⟩ false).created_at = none ∧
    (ScorerBelief.mk 2 none none ⟨none, none⟩ false).modified_at = none ∧
    calculate_freshness (ScorerBelief.mk 2 none none ⟨none, none⟩ false) 0 =
      Except.error FreshnessError.invalidConfidence ∧
    FreshnessError.invalidConfidence ≠ FreshnessError.missingTimestamp := by
  refine ⟨rfl, rfl, ?_, by decide⟩
  norm_num [calculate_freshness, ageBasis]

/-- C9 (amended): `calculate_freshness` fails with
`InvalidConfidenceError` exactly when the confidence is outside [0, 1];
it fails with `MissingTimestampError` exactly when the confidence is in
range and both timestamps are absent (the confidence check runs
first); and under in-range confidence with at least one timestamp it
succeeds. -/
theorem c9_error_conditions (b : ScorerBelief) (now : Int) :
    (calculate_freshness b now =
        Except.error FreshnessError.invalidConfidence ↔
      (b.confidence_overall < 0 ∨ 1 < b.confidence_overall)) ∧
    (calculate_freshness b now =
        Except.error FreshnessError.missingTimestamp ↔
      (0 ≤ b.confidence_overall ∧ b.confidence_overall ≤ 1 ∧
        b.created_at = none ∧ b.modified_at = none)) ∧
    ((0 ≤ b.confidence_overall ∧ b.confidence_overall ≤ 1 ∧
        ¬(b.created_at = none ∧ b.modified_at = none)) →
      ∃ r, calculate_freshness b now = Except.ok r) := by
  by_cases hconf : b.confidence_overall < 0 ∨ 1 < b.confidence_overall
  · refine ⟨?_, ?_, ?_⟩
    · unfold calculate_freshness
      rw [if_pos hconf]
      simp [hconf]
    · unfold calculate_freshness
      rw [if_pos hconf]
      constructor
      · intro h
        exact absurd h (by simp)
      · intro h
        rcases hconf with hc | hc
        · exact absurd h.1 (not_le.mpr hc)
        · exact absurd h.2.1 (not_le.mpr hc)
    · intro h
      rcases hconf with hc | hc
      · exact absurd h.1 (not_le.mpr hc)
      · exact absurd h.2.1 (not_le.mpr hc)
  · have hc2 : 0 ≤ b.confidence_overall ∧ b.confidence_overall ≤ 1 := by
      push_neg at hconf
      exact hconf
    cases hab : ageBasis b with
    | none =>
      have hboth := (ageBasis_eq_none b).mp hab
      refine ⟨?_, ?_, ?_⟩
      · unfold calculate_freshness
        rw [if_neg hconf, hab]
        constructor
        · intro h
          exact absurd h (by simp)
        · intro h
          exact absurd h hconf
      · unfold calculate_freshness
        rw [if_neg hconf, hab]
        simp [hc2.1, hc2.2, hboth.1, hboth.2]
      · intro h
        exact absurd ⟨hboth.2, hboth.1⟩ h.2.2
    | some ts =>
      refine ⟨?_, ?_, ?_⟩
      · unfold calculate_freshness
        rw [if_neg hconf, hab]
        constructor
        · intro h
          exact absurd h (by simp)
        · intro h
          exact absurd h hconf
      · unfold calculate_freshness
        rw [if_neg hconf, hab]
        constructor
        · intro h
          exact absurd h (by simp)
        · intro h
          have := (ageBasis_eq_none b).mpr ⟨h.2.2.2, h.2.2.1⟩
          rw [hab] at this
          exact absurd this (by simp)
      · intro h
        refine ⟨⟨clamp01 (rawScore b now ts),
          scoreLabel b now (clamp01 (rawScore b now ts))⟩, ?_⟩
        unfold calculate_freshness
        rw [if_neg hconf, hab]

/-- Witness for C9 discharging the success-case hypothesis at a
concrete belief with in-range confidence and one timestamp present. -/
theorem c9_witness :
    ∃ r, calculate_freshness
      (ScorerBelief.mk (1 / 2) (some 3) none ⟨none, none⟩ false) 0 =
      Except.ok r :=
  (c9_error_conditions ⟨1 / 2, some 3, none, ⟨none, none⟩, false⟩ 0).2.2
    ⟨by norm_num, by norm_num, by simp⟩

/-- Counterexample for C10: when the supplied confidence mapping is
empty, the factory stores the serialization of the default mapping
(the Python `or` treats the empty dict as falsy), not json.dumps of
the supplied mapping. -/
theorem c10_counterexample :
    (belief_row_factory 0 0 none "Test belief content"
        (some (Json.obj [])) none "active" emptyKwargs).confidence =
      PyVal.pyStr "\x7b\"overall\": 0.7\x7d" ∧
    jsonDumps (Json.obj []) = "\x7b\x7d" ∧
    PyVal.pyStr "\x7b\"overall\": 0.7\x7d" ≠ PyVal.pyStr "\x7b\x7d" := by
  refine ⟨rfl, rfl, ?_⟩
  intro h
  injection h with h2
  exact absurd h2 (by decide)

/-- C10 (amended): the confidence entry of every factory row is a
JSON-encoded string, namely json.dumps of the supplied mapping when
that mapping is truthy and of the default mapping otherwise; it is
never a mapping value; an omitted or None confidence yields exactly
the serialization of the default mapping; and a call with default
arguments sets status to active and leaves supersedes_id,
superseded_by_id, valid_from and valid_until as None. -/
theorem c10_factory_confidence (freshUuid : Nat) (now : Int)
    (id : Option Nat) (content : String) (confidence : Option Json)
    (domain_path : Option (List String)) (status : String)
    (kwargs : BeliefKwargs) :
    (belief_row_factory freshUuid now id content confidence domain_path
        status kwargs).confidence =
      PyVal.pyStr (jsonDumps (pyOrDefault confidence defaultConfidence)) ∧
    (∀ j, (belief_row_factory freshUuid now id content confidence
        domain_path status kwargs).confidence ≠ PyVal.pyDict j) ∧
    (confidence = none →
      (belief_row_factory freshUuid now id content confidence domain_path
          status kwargs).confidence =
        PyVal.pyStr "\x7b\"overall\": 0.7\x7d") ∧
    (belief_row_factory freshUuid now id content confidence domain_path
        "active" emptyKwargs).status = PyVal.pyStr "active" ∧
    (belief_row_factory freshUuid now id content confidence domain_path
        "active" emptyKwargs).supersedes_id = PyVal.pyNone ∧
    (belief_row_factory freshUuid now id content confidence domain_path
        "active" emptyKwargs).superseded_by_id = PyVal.pyNone ∧
    (belief_row_factory freshUuid now id content confidence domain_path
        "active" emptyKwargs).valid_from = PyVal.pyNone ∧
    (belief_row_factory freshUuid now id content confidence domain_path
        "active" emptyKwargs).valid_until = PyVal.pyNone := by
  refine ⟨rfl, ?_, ?_, rfl, rfl, rfl, rfl, rfl⟩
  · intro j h
    exact PyVal.noConfusion h
  · intro h
    subst h
    rfl

/-- Witness for C10 (amended) discharging the omitted-confidence
hypothesis. -/
theorem c10_witness :
    (belief_row_factory 0 0 none "Test belief content" none none
        "active" emptyKwargs).confidence =
      PyVal.pyStr "\x7b\"overall\": 0.7\x7d" :=
  (c10_factory_confidence 0 0 none "Test belief content" none none
    "active" emptyKwargs).2.2.1 rfl
